import Mathlib

/-!
Shallow embedding of the CNH-Tracker repository (Node/Express Google Sheets
proxy, PHP reimplementation, redux-saga client) for checking its
natural-language specification.  Definitions are transcribed from the
source files; machine strings are modelled as Lean `String`s over their
character lists, and the stateful routes as pure functions from the
relevant inputs (stored spreadsheet id, sheet tabs, request body) to the
HTTP status plus the list of cell writes performed.
-/

namespace CNHTracker

/-! ### JavaScript / PHP string primitives

`String.prototype.trim` and PHP `trim` remove leading/trailing whitespace;
we model the common whitespace characters.  `toLowerCase` / `strcasecmp`
are modelled over ASCII. -/

def isJsSpace (c : Char) : Bool :=
  c == ' ' || c == '\t' || c == '\n' || c == '\r' || c == '\x0b' || c == '\x0c'

def jsTrim (s : String) : String :=
  String.mk (((s.toList.dropWhile isJsSpace).reverse.dropWhile isJsSpace).reverse)

/-- PHP `trim` strips its default charlist `" \t\n\r\0\x0B"`: unlike the
JS trim it removes NUL and does not remove form feed. -/
def isPhpSpace (c : Char) : Bool :=
  c == ' ' || c == '\t' || c == '\n' || c == '\r' || c == '\x00' || c == '\x0b'

def phpTrim (s : String) : String :=
  String.mk (((s.toList.dropWhile isPhpSpace).reverse.dropWhile isPhpSpace).reverse)

def lowerChar (c : Char) : Char :=
  if 'A' ≤ c && c ≤ 'Z' then Char.ofNat (c.toNat + 32) else c

def jsToLower (s : String) : String := String.mk (s.toList.map lowerChar)

/-- Model of `String(x).trim().toLowerCase()`, the normalisation used for
all case-insensitive comparisons in `googlesheets.router.js`. -/
def jsNorm (s : String) : String := jsToLower (jsTrim s)

example : jsNorm "  DeViCe " = "device" := by decide
example : jsTrim "\t a b \n" = "a b" := by decide

/-! ### `columnIndexToA1` (googlesheets.router.js lines 130-139) and
`columnToA1` (googleSheets.php lines 91-100)

Both sources run the identical loop
`while idx > 0: rem = (idx-1) % 26; prepend chr(65+rem); idx = (idx-1) / 26`.
The loop is embedded with explicit fuel (the loop variable only ever
decreases, so `idx` itself bounds the iteration count). -/

def a1Go : Nat → Nat → List Char → List Char
  | 0, _, acc => acc
  | _ + 1, 0, acc => acc
  | fuel + 1, k + 1, acc => a1Go fuel (k / 26) (Char.ofNat (65 + k % 26) :: acc)

def columnIndexToA1 (colIdxZeroBased : Nat) : String :=
  String.mk (a1Go (colIdxZeroBased + 1) (colIdxZeroBased + 1) [])

/-- PHP `columnToA1` runs the very same loop (php lines 91-100). -/
def columnToA1 (idx : Nat) : String :=
  String.mk (a1Go (idx + 1) (idx + 1) [])

example : columnIndexToA1 0 = "A" := by decide
example : columnIndexToA1 26 = "AA" := by decide
example : columnIndexToA1 702 = "AAA" := by decide

/-- Bijective base-26 value of a column label: fold `acc * 26 + (c - 64)`
over the characters, so "A" = 1, "Z" = 26, "AA" = 27, ... -/
def bijValue (s : String) : Nat :=
  s.toList.foldl (fun acc c => acc * 26 + (c.toNat - 64)) 0

example : bijValue "AAA" = 703 := by decide

/-! ### Sheet data model

A spreadsheet is a list of tabs; each tab has `properties.title`,
`properties.index` (possibly absent, the router substitutes 0) and the
values returned by `spreadsheets.values.get` for its title (possibly
absent, the router substitutes `[]`).  Cells are modelled as strings:
every comparison in the sources first coerces the cell with
`String(cell ?? "")` (JS) or `(string)($cell ?? "")` (PHP), and an absent
cell behaves exactly like `""`. -/

structure Tab where
  title : String
  index : Option Nat
  values : Option (List (List String))
deriving DecidableEq, Repr

/-- Comparator of the router's sort: `(a.properties.index ?? 0) - (b.properties.index ?? 0)`. -/
def tabKey (t : Tab) : Nat := t.index.getD 0

/-- Stable insertion of a tab into a list already sorted by `tabKey`.
`Array.prototype.sort` is stable, so the sorted list it produces is the
unique stable sort by `tabKey`, which stable insertion sort computes. -/
def insertTab (t : Tab) : List Tab → List Tab
  | [] => [t]
  | u :: us => if tabKey t ≤ tabKey u then t :: u :: us else u :: insertTab t us

/-- Model of `[...meta.sheets].sort((a, b) => (a.properties.index ?? 0) - (b.properties.index ?? 0))`
(googlesheets.router.js lines 108-110). -/
def sortTabs : List Tab → List Tab
  | [] => []
  | t :: ts => insertTab t (sortTabs ts)

/-- Model of `readAllRowsFromFirstTab` (googlesheets.router.js lines
102-127): error when the sheet list is empty, otherwise the title and
rows (`values || []`) of the first tab after sorting by index. -/
def readAllRowsFromFirstTab (tabs : List Tab) : Except String (String × List (List String)) :=
  if tabs.isEmpty then .error "The spreadsheet has no visible sheets."
  else
    match (sortTabs tabs).head? with
    | none => .error "The spreadsheet has no visible sheets."
    | some first => .ok (first.title, first.values.getD [])

/-- Model of `getFirstTabHeader` (googlesheets.router.js lines 141-148):
reads the first tab and errors when it has no rows; otherwise returns
the tab name, the header row `rows[0]` and all rows. -/
def getFirstTabHeader (tabs : List Tab) :
    Except String (String × List String × List (List String)) :=
  match readAllRowsFromFirstTab tabs with
  | .error e => .error e
  | .ok (sheetTitle, rows) =>
    if rows.isEmpty then .error "Spreadsheet has no data."
    else .ok (sheetTitle, rows.headD [], rows)

/-! ### `findRowByHeaderValue` (googlesheets.router.js lines 151-162) -/

/-- Model of `header.findIndex((h) => String(h || "").trim().toLowerCase() === String(colName).trim().toLowerCase())`. -/
def headerColIdx (header : List String) (colName : String) : Option Nat :=
  header.findIdx? (fun h => jsNorm h == jsNorm colName)

structure RowCol where
  rowIndex1 : Int
  colIndex0 : Int
deriving DecidableEq, Repr

/-- The `for (let r = 1; r < rows.length; r++)` scan: called on
`rows.drop 1` with `r = 1`, returns `r + 1` at the first row whose cell
in column `colIdx` normalises to `target`, else `-1`. -/
def findRowScan (colIdx : Nat) (target : String) : List (List String) → Nat → Int
  | [], _ => -1
  | row :: rest, r =>
    if jsNorm (row.getD colIdx "") == target then (r + 1 : Int)
    else findRowScan colIdx target rest (r + 1)

/-- Model of `findRowByHeaderValue(rows, header, colName, needle)`
(googlesheets.router.js lines 151-162). -/
def findRowByHeaderValue (rows : List (List String)) (header : List String)
    (colName needle : String) : RowCol :=
  match headerColIdx header colName with
  | none => ⟨-1, -1⟩
  | some colIdx =>
    ⟨findRowScan colIdx (jsNorm needle) (rows.drop 1) 1, (colIdx : Int)⟩

example :
    findRowByHeaderValue [["Device", "Completed"], ["box1", ""], ["Box2", "x"]]
      ["Device", "Completed"] "device" " BOX2 " = ⟨3, 0⟩ := by decide
example :
    findRowByHeaderValue [["Device"], ["box1"]] ["Device"] "Model" "box1" = ⟨-1, -1⟩ := by
  decide
example :
    findRowByHeaderValue [["Device"], ["box1"]] ["Device"] "Device" "zzz" = ⟨-1, 0⟩ := by
  decide

/-! ### The PUT routes (googlesheets.router.js lines 224-333)

A route's observable outcome is its HTTP status together with the list of
`(range, value)` cell writes it performs against the Sheets API; every
handler performs at most one.  The stored spreadsheet id (the pointer
file) and the spreadsheet contents are the route's inputs; a thrown
exception in the `try` block becomes status 500 with no write. -/

/-- Model of `header.findIndex((h) => String(h || "").trim().toLowerCase() === "completed")`
(router lines 235 and 273). -/
def completedHeaderIdx (header : List String) : Option Nat :=
  header.findIdx? (fun h => jsNorm h == "completed")

/-- Model of the comment route's header lookup (router line 313). -/
def commentHeaderIdx (header : List String) : Option Nat :=
  header.findIdx? (fun h => jsNorm h == "comment")

/-- Model of `router.put("/complete")` (googlesheets.router.js lines
224-255).  `rawDevice` is `String(req.body?.device || "")`. -/
def putComplete (storedId : Option String) (tabs : List Tab) (rawDevice : String) :
    Nat × List (String × String) :=
  match storedId with
  | none => (400, [])
  | some _ =>
    let device := jsTrim rawDevice
    if device == "" then (400, [])
    else
      match getFirstTabHeader tabs with
      | .error _ => (500, [])
      | .ok (tabName, header, rows) =>
        match completedHeaderIdx header with
        | none => (500, [])
        | some completedIdx =>
          let fr := findRowByHeaderValue rows header "Device" device
          if fr.rowIndex1 == -1 then (404, [])
          else
            (200, [(tabName ++ "!" ++ columnIndexToA1 completedIdx ++ toString fr.rowIndex1,
                    "TRUE")])

/-- Model of `router.put("/incomplete")` (googlesheets.router.js lines
262-293); identical to the complete handler except it writes "FALSE". -/
def putIncomplete (storedId : Option String) (tabs : List Tab) (rawDevice : String) :
    Nat × List (String × String) :=
  match storedId with
  | none => (400, [])
  | some _ =>
    let device := jsTrim rawDevice
    if device == "" then (400, [])
    else
      match getFirstTabHeader tabs with
      | .error _ => (500, [])
      | .ok (tabName, header, rows) =>
        match completedHeaderIdx header with
        | none => (500, [])
        | some completedIdx =>
          let fr := findRowByHeaderValue rows header "Device" device
          if fr.rowIndex1 == -1 then (404, [])
          else
            (200, [(tabName ++ "!" ++ columnIndexToA1 completedIdx ++ toString fr.rowIndex1,
                    "FALSE")])

/-- Model of `router.put("/comment")` (googlesheets.router.js lines
300-333): writes the comment verbatim to the Comment column. -/
def putComment (storedId : Option String) (tabs : List Tab)
    (rawDevice rawComment : String) : Nat × List (String × String) :=
  match storedId with
  | none => (400, [])
  | some _ =>
    let device := jsTrim rawDevice
    if device == "" then (400, [])
    else
      match getFirstTabHeader tabs with
      | .error _ => (500, [])
      | .ok (tabName, header, rows) =>
        match commentHeaderIdx header with
        | none => (500, [])
        | some commentIdx =>
          let fr := findRowByHeaderValue rows header "Device" device
          if fr.rowIndex1 == -1 then (404, [])
          else
            (200, [(tabName ++ "!" ++ columnIndexToA1 commentIdx ++ toString fr.rowIndex1,
                    rawComment)])

/-! ### The PHP handler (googleSheets.php lines 150-201) -/

/-- Model of `array_search($name, $header)`: the first key whose value
compares equal to `$name` (PHP string comparison is case-sensitive and
does not trim). -/
def phpFindCol (header : List String) (name : String) : Option Nat :=
  header.findIdx? (fun h => h == name)

/-- The `for ($i = 1; $i < count($data); $i++)` scan comparing
`strcasecmp(trim((string)($data[$i][$deviceCol] ?? "")), $device) === 0`
with PHP's `trim`; called on `data.drop 1` with `i = 1`, yields
`$i + 1` or `-1`. -/
def phpRowScan (deviceCol : Nat) (device : String) : List (List String) → Nat → Int
  | [], _ => -1
  | row :: rest, i =>
    if jsToLower (phpTrim (row.getD deviceCol "")) == jsToLower device then (i + 1 : Int)
    else phpRowScan deviceCol device rest (i + 1)

/-- Model of the comment sanitisation (googleSheets.php line 183):
`if (preg_match("/^[=+\-@]/", $value)) $value = "'" . $value;`. -/
def phpSanitizeComment (value : String) : String :=
  match value.toList with
  | [] => value
  | c :: _ =>
    if c == '=' || c == '+' || c == '-' || c == '@' then
      String.mk [Char.ofNat 39] ++ value
    else value

/-- Model of the PHP `PUT complete/incomplete/comment` handler
(googleSheets.php lines 150-201).  PHP takes `$meta->sheets[0]` without
sorting; an empty sheet list crashes the script, modelled as a 500 with
no write.  The guard `if (!$device)` rejects the falsy strings, i.e.
the empty string and "0". -/
def phpPut (action : String) (storedId : Option String) (tabs : List Tab)
    (rawDevice rawComment : String) : Nat × List (String × String) :=
  match storedId with
  | none => (400, [])
  | some _ =>
    let device := phpTrim rawDevice
    if device == "" || device == "0" then (400, [])
    else
      match tabs.head? with
      | none => (500, [])
      | some tab =>
        let data := tab.values.getD []
        let header := data.headD []
        match phpFindCol header "Device" with
        | none => (500, [])
        | some deviceCol =>
          let targetColName := if action == "comment" then "Comment" else "Completed"
          match phpFindCol header targetColName with
          | none => (500, [])
          | some targetCol =>
            let rowIndex := phpRowScan deviceCol device (data.drop 1) 1
            if rowIndex == -1 then (404, [])
            else
              let value :=
                if action == "comment" then phpSanitizeComment rawComment
                else if action == "complete" then "TRUE" else "FALSE"
              (200, [(tab.title ++ "!" ++ columnToA1 targetCol ++ toString rowIndex, value)])

/-! ### `normalizeSpreadsheetId` (googlesheets.router.js lines 85-90)

The regex `spreadsheets\/d\/([a-zA-Z0-9-_]+)` is embedded directly: the
match scans for the leftmost position where the literal
`spreadsheets/d/` is followed by at least one id character, and the
greedy `+` captures the maximal run of id characters there. -/

def idChar (c : Char) : Bool :=
  ('a' ≤ c && c ≤ 'z') || ('A' ≤ c && c ≤ 'Z') || ('0' ≤ c && c ≤ '9') || c == '-' || c == '_'

def sheetsLit : List Char := "spreadsheets/d/".toList

/-- One attempted match of the regex at a fixed position: succeeds when
the literal is a prefix of `cs` and an id character follows, capturing
the maximal id-character run. -/
def matchIdAt (cs : List Char) : Option String :=
  if sheetsLit.isPrefixOf cs then
    let rest := cs.drop sheetsLit.length
    let run := rest.takeWhile idChar
    if run.isEmpty then none else some (String.mk run)
  else none

/-- Leftmost regex match: try every position left to right. -/
def findIdMatch : List Char → Option String
  | [] => none
  | c :: rest =>
    match matchIdAt (c :: rest) with
    | some g => some g
    | none => findIdMatch rest

/-- Scan for an occurrence of `pat` starting at any position. -/
def containsSeq (pat : List Char) : List Char → Bool
  | [] => pat.isPrefixOf []
  | c :: rest => pat.isPrefixOf (c :: rest) || containsSeq pat rest

/-- Model of `input.includes("http")`. -/
def hasHttp (s : String) : Bool := containsSeq "http".toList s.toList

/-- Model of `normalizeSpreadsheetId` (googlesheets.router.js lines
85-90).  `none` stands for a missing or non-string body field; the
falsy check `!input` also rejects the empty string. -/
def normalizeSpreadsheetId (input : Option String) : Option String :=
  match input with
  | none => none
  | some s =>
    if s == "" then none
    else if !hasHttp s then some (jsTrim s)
    else findIdMatch s.toList

example : normalizeSpreadsheetId (some " abc123 ") = some "abc123" := by decide
example :
    normalizeSpreadsheetId
      (some "https://docs.google.com/spreadsheets/d/aB3-_x/edit") = some "aB3-_x" := by
  decide
example : normalizeSpreadsheetId (some "http://example.com/") = none := by decide
example : normalizeSpreadsheetId (some "") = none := by decide

/-! ### The pointer-file store (googlesheets.router.js lines 36-50)

The store file is modelled at the JSON level: `none` = the file is
missing (readFileSync throws), `some none` = its text does not parse,
`some (some j)` = it parses to the JSON value `j`. -/

inductive Json where
  | null
  | bool (b : Bool)
  | num (n : Int)
  | str (s : String)
  | arr (elems : List Json)
  | obj (fields : List (String × Json))

/-- Property access `parsed.spreadsheetId`: only an object yields a
field; on every other value (including the falsy ones the router's
`parsed &&` guard rejects) the lookup yields nothing. -/
def Json.field? : Json → String → Option Json
  | .obj fields, k => fields.lookup k
  | _, _ => none

/-- Model of `loadActiveSpreadsheetId` (googlesheets.router.js lines
36-44): null unless the file exists, parses, and holds a string
`spreadsheetId` field. -/
def loadActiveSpreadsheetId (file : Option (Option Json)) : Option String :=
  match file with
  | some (some parsed) =>
    match parsed.field? "spreadsheetId" with
    | some (.str s) => some s
    | _ => none
  | _ => none

/-- Model of `saveActiveSpreadsheetId` (googlesheets.router.js lines
46-50): the file afterwards holds the serialised
`{ spreadsheetId, updatedAt }` object. -/
def saveActiveSpreadsheetId (spreadsheetId updatedAt : String) : Option (Option Json) :=
  some (some (.obj [("spreadsheetId", .str spreadsheetId), ("updatedAt", .str updatedAt)]))

/-! ### The saga workers (redux/sagas/googleSheets.saga.js)

`fetchRowsWorker` makes up to `MAX_ATTEMPTS = 3` `GET /rows` calls.  A
call's outcome is: `ok rows` (HTTP success with `data.ok` truthy),
`notOk msg` (HTTP success but `data.ok` falsy, so the worker throws a
plain `Error` carrying no response), or `httpErr status msg` (axios
rejection whose `err.response?.status || null` is `status`). -/

inductive RowsOutcome where
  | ok (rows : List (List String))
  | notOk (msg : String)
  | httpErr (status : Option Nat) (msg : String)
deriving DecidableEq, Repr

structure NormErr where
  status : Option Nat
  message : String
deriving DecidableEq, Repr

/-- Model of `normalizeError` applied to the error of a failed attempt. -/
def normalizeOutcome : RowsOutcome → NormErr
  | .ok _ => ⟨none, ""⟩
  | .notOk msg => ⟨none, msg⟩
  | .httpErr status msg => ⟨status, msg⟩

/-- Model of `normalizeError` applied to the already-normalised object the worker
re-throws after the loop: that object has no `response`, so the status
comes out `null` while the message survives. -/
def renormErr (e : NormErr) : NormErr := ⟨none, e.message⟩

inductive SagaEvent where
  | rowsSuccess (rows : List (List String))
  | rowsFailure (e : NormErr)
deriving DecidableEq, Repr

def RowsOutcome.isOk : RowsOutcome → Bool
  | .ok _ => true
  | _ => false

/-- The retry loop of `fetchRowsWorker`: `attempt` counts 1, 2, 3;
returns the number of `GET /rows` calls made and the dispatched events.
On `ok` it dispatches `ROWS_SUCCESS` and returns; on a failure whose
status is 400 it breaks (and the code after the loop throws the last
error, caught into a single `ROWS_FAILURE`); otherwise it delays and
retries, and after the third failure throws the last error likewise. -/
def fetchRowsGo (outcomes : Nat → RowsOutcome) (attempt : Nat) (lastError : Option NormErr)
    (fuel : Nat) : Nat × List SagaEvent :=
  match fuel with
  | 0 =>
    (attempt - 1,
     [.rowsFailure (renormErr (lastError.getD ⟨none, "Unknown error fetching rows."⟩))])
  | fuel + 1 =>
    match outcomes attempt with
    | .ok rows => (attempt, [.rowsSuccess rows])
    | o =>
      let le := normalizeOutcome o
      if le.status == some 400 then (attempt, [.rowsFailure (renormErr le)])
      else fetchRowsGo outcomes (attempt + 1) (some le) fuel

/-- Model of `fetchRowsWorker` (the saga's `MAX_ATTEMPTS = 3` loop). -/
def fetchRowsWorker (outcomes : Nat → RowsOutcome) : Nat × List SagaEvent :=
  fetchRowsGo outcomes 1 none 3

/-- Outcome of a single complete/incomplete/comment API call. -/
inductive PutOutcome where
  | ok
  | notOk (msg : String)
  | httpErr (status : Option Nat) (msg : String)
deriving DecidableEq, Repr

/-- Model of `completeWorker`: number of API calls it makes.  When the
trimmed device is empty it throws before calling; otherwise it makes
exactly one call, whatever the outcome — there is no retry. -/
def completeWorkerCalls (rawDevice : String) (outcome : PutOutcome) : Nat :=
  if jsTrim rawDevice == "" then 0
  else match outcome with
    | _ => 1

/-- Model of `incompleteWorker`'s API call count (same shape). -/
def incompleteWorkerCalls (rawDevice : String) (outcome : PutOutcome) : Nat :=
  if jsTrim rawDevice == "" then 0
  else match outcome with
    | _ => 1

/-- Model of `updateCommentWorker`'s API call count (same shape). -/
def updateCommentWorkerCalls (rawDevice : String) (outcome : PutOutcome) : Nat :=
  if jsTrim rawDevice == "" then 0
  else match outcome with
    | _ => 1

/-- Model of `linkSheetWorker`'s API call count: one `POST /link` unless
the spreadsheet id is empty (it then throws before calling). -/
def linkSheetWorkerCalls (spreadsheetId : String) (outcome : PutOutcome) : Nat :=
  if jsTrim spreadsheetId == "" then 0
  else match outcome with
    | _ => 1

/-! ## Helper lemmas -/

/-- The digit characters the A1 loop emits satisfy `toNat (ofNat n) = n`. -/
theorem toNat_ofNat_digit (m : Nat) (h : m < 26) : (Char.ofNat (65 + m)).toNat = 65 + m := by
  interval_cases m <;> decide

theorem digit_in_range (m : Nat) (h : m < 26) :
    'A' ≤ Char.ofNat (65 + m) ∧ Char.ofNat (65 + m) ≤ 'Z' := by
  interval_cases m <;> exact ⟨by decide, by decide⟩

/-- Folding the bijective base-26 digit value over the characters the A1
loop produces recovers the loop's starting value. -/
theorem a1Go_foldl (fuel : Nat) : ∀ idx acc, idx ≤ fuel →
    List.foldl (fun a c => a * 26 + (c.toNat - 64)) 0 (a1Go fuel idx acc)
      = List.foldl (fun a c => a * 26 + (c.toNat - 64)) idx acc := by
  induction fuel with
  | zero =>
    intro idx acc h
    interval_cases idx
    rfl
  | succ fl ih =>
    intro idx acc h
    match idx with
    | 0 => rfl
    | k + 1 =>
      show List.foldl _ 0 (a1Go fl (k / 26) (Char.ofNat (65 + k % 26) :: acc)) = _
      rw [ih (k / 26) _ (le_trans (Nat.div_le_self k 26) (Nat.le_of_succ_le_succ h))]
      simp only [List.foldl_cons]
      have hd := toNat_ofNat_digit (k % 26) (Nat.mod_lt _ (by omega))
      rw [hd]
      congr 1
      omega

theorem a1Go_chars (fuel : Nat) : ∀ idx acc, (∀ c ∈ acc, 'A' ≤ c ∧ c ≤ 'Z') →
    ∀ c ∈ a1Go fuel idx acc, 'A' ≤ c ∧ c ≤ 'Z' := by
  induction fuel with
  | zero => intro idx acc hacc; exact hacc
  | succ fl ih =>
    intro idx acc hacc
    match idx with
    | 0 => exact hacc
    | k + 1 =>
      refine ih (k / 26) (Char.ofNat (65 + k % 26) :: acc) ?_
      intro c hc
      rcases List.mem_cons.mp hc with h | h
      · subst h; exact digit_in_range (k % 26) (Nat.mod_lt _ (by omega))
      · exact hacc c h

theorem a1Go_length (fuel : Nat) : ∀ idx acc, acc.length ≤ (a1Go fuel idx acc).length := by
  induction fuel with
  | zero => intro idx acc; exact le_refl _
  | succ fl ih =>
    intro idx acc
    match idx with
    | 0 => exact le_refl _
    | k + 1 =>
      calc acc.length ≤ (Char.ofNat (65 + k % 26) :: acc).length := by simp
        _ ≤ _ := ih (k / 26) _

/-! ## The claims -/

/-- C2: for every zero-based column index `n`, `columnIndexToA1 n`
terminates (it is a total Lean function) and returns the bijective
base-26 column label of value `n + 1` over the letters A..Z, with the
listed concrete values. -/
theorem columnIndexToA1_correct :
    (∀ n : Nat, bijValue (columnIndexToA1 n) = n + 1
      ∧ columnIndexToA1 n ≠ ""
      ∧ ∀ c ∈ (columnIndexToA1 n).toList, 'A' ≤ c ∧ c ≤ 'Z')
    ∧ columnIndexToA1 0 = "A" ∧ columnIndexToA1 25 = "Z" ∧ columnIndexToA1 26 = "AA"
    ∧ columnIndexToA1 701 = "ZZ" ∧ columnIndexToA1 702 = "AAA" := by
  refine ⟨fun n => ⟨?_, ?_, ?_⟩, by decide, by decide, by decide, by decide, by decide⟩
  · show List.foldl _ 0 (a1Go (n + 1) (n + 1) []) = n + 1
    rw [a1Go_foldl (n + 1) (n + 1) [] (le_refl _)]
    rfl
  · intro h
    have hlen : (1 : Nat) ≤ (a1Go (n + 1) (n + 1) []).length := by
      show (1 : Nat) ≤ (a1Go (n + 1) (n + 1) []).length
      calc (1 : Nat) = ([Char.ofNat (65 + n % 26)] : List Char).length := rfl
        _ ≤ (a1Go n (n / 26) [Char.ofNat (65 + n % 26)]).length := a1Go_length n _ _
        _ = (a1Go (n + 1) (n + 1) []).length := rfl
    have : (columnIndexToA1 n).toList = [] := by rw [h]; rfl
    have : (a1Go (n + 1) (n + 1) []).length = 0 := by
      have := congrArg List.length this
      simpa [columnIndexToA1] using this
    omega
  · exact a1Go_chars (n + 1) (n + 1) [] (by intro c hc; simp at hc)

/-- The row scan is the first index satisfying the match predicate,
shifted to the sheet's 1-based numbering. -/
theorem findRowScan_eq (colIdx : Nat) (target : String) :
    ∀ (data : List (List String)) (r0 : Nat),
      findRowScan colIdx target data r0
        = match data.findIdx? (fun row => jsNorm (row.getD colIdx "") == target) with
          | none => -1
          | some k => (r0 + k + 1 : Int) := by
  intro data
  induction data with
  | nil => intro r0; rfl
  | cons row rest ih =>
    intro r0
    rw [show findRowScan colIdx target (row :: rest) r0
        = if (jsNorm (row.getD colIdx "") == target) = true then ((r0 : Int) + 1)
          else findRowScan colIdx target rest (r0 + 1) from rfl]
    rw [show (row :: rest).findIdx? (fun row => jsNorm (row.getD colIdx "") == target)
        = if (jsNorm (row.getD colIdx "") == target) = true then some 0
          else (rest.findIdx? (fun row => jsNorm (row.getD colIdx "") == target) 0).map
                 (fun k => k + (0 + 1)) from by
          rw [List.findIdx?_cons, List.findIdx?_start_succ]]
    cases hm : (jsNorm (row.getD colIdx "") == target) with
    | true =>
      rw [if_pos rfl, if_pos rfl]
      show ((r0 : Int) + 1) = (r0 : Int) + ((0 : Nat) : Int) + 1
      omega
    | false =>
      rw [if_neg Bool.false_ne_true, if_neg Bool.false_ne_true, ih (r0 + 1)]
      cases hfi : rest.findIdx? (fun row => jsNorm (row.getD colIdx "") == target) with
      | none => rfl
      | some k =>
        show (((r0 + 1 : Nat) : Int) + (k : Int) + 1)
          = (r0 : Int) + (((k + (0 + 1) : Nat)) : Int) + 1
        omega

theorem findRowByHeaderValue_of_none (rows : List (List String)) (header : List String)
    (colName needle : String) (h : headerColIdx header colName = none) :
    findRowByHeaderValue rows header colName needle = ⟨-1, -1⟩ := by
  unfold findRowByHeaderValue
  rw [h]

theorem findRowByHeaderValue_of_some (rows : List (List String)) (header : List String)
    (colName needle : String) (c : Nat) (h : headerColIdx header colName = some c) :
    findRowByHeaderValue rows header colName needle
      = ⟨findRowScan c (jsNorm needle) (rows.drop 1) 1, (c : Int)⟩ := by
  unfold findRowByHeaderValue
  rw [h]

/-- C1: `findRowByHeaderValue` resolves `colIndex0` to the index of the
first header cell equal to the column name after trimming and
lowercasing (or -1 when none matches), and `rowIndex1` to the 1-based
sheet row (header = row 1) of the unique data row whose cell in that
column equals the needle after trimming and lowercasing, -1 when the
column is absent or no data row matches. -/
theorem findRowByHeaderValue_correct :
    ∀ (header : List String) (data : List (List String)) (colName needle : String),
      ((findRowByHeaderValue (header :: data) header colName needle).colIndex0 = -1
          ↔ ∀ h ∈ header, jsNorm h ≠ jsNorm colName)
      ∧ (∀ i : Nat,
          (findRowByHeaderValue (header :: data) header colName needle).colIndex0 = (i : Int) →
            (∃ h, header[i]? = some h ∧ jsNorm h = jsNorm colName)
            ∧ ∀ j < i, ∀ h, header[j]? = some h → jsNorm h ≠ jsNorm colName)
      ∧ ((findRowByHeaderValue (header :: data) header colName needle).colIndex0 = -1 →
          (findRowByHeaderValue (header :: data) header colName needle).rowIndex1 = -1)
      ∧ (∀ i : Nat,
          (findRowByHeaderValue (header :: data) header colName needle).colIndex0 = (i : Int) →
            ((findRowByHeaderValue (header :: data) header colName needle).rowIndex1 = -1
              ↔ ∀ row ∈ data, jsNorm (row.getD i "") ≠ jsNorm needle)
            ∧ ∀ k : Nat, ∀ row, data[k]? = some row →
                jsNorm (row.getD i "") = jsNorm needle →
                (∀ k' row', data[k']? = some row' →
                    jsNorm (row'.getD i "") = jsNorm needle → k' = k) →
                (findRowByHeaderValue (header :: data) header colName needle).rowIndex1
                  = (k : Int) + 2) := by
  intro header data colName needle
  cases hcol : headerColIdx header colName with
  | none =>
    rw [findRowByHeaderValue_of_none (header :: data) header colName needle hcol]
    have hall : ∀ h ∈ header, jsNorm h ≠ jsNorm colName := by
      have hnone := List.findIdx?_eq_none_iff.mp hcol
      intro h hh heq
      have hfalse := hnone h hh
      rw [heq] at hfalse
      simp at hfalse
    refine ⟨⟨fun _ => hall, fun _ => rfl⟩, ?_, fun _ => rfl, ?_⟩
    · intro i hi
      have hi2 : (-1 : Int) = (i : Int) := hi
      exact absurd hi2 (by omega)
    · intro i hi
      have hi2 : (-1 : Int) = (i : Int) := hi
      exact absurd hi2 (by omega)
  | some c =>
    rw [findRowByHeaderValue_of_some (header :: data) header colName needle c hcol]
    obtain ⟨hc, hmatch, hfirst⟩ := List.findIdx?_eq_some_iff_getElem.mp hcol
    have hmem : header[c] ∈ header := List.getElem_mem hc
    have hmatch2 : jsNorm header[c] = jsNorm colName := by simpa using hmatch
    refine ⟨?_, ?_, ?_, ?_⟩
    · constructor
      · intro h
        have h2 : (c : Int) = -1 := h
        exact absurd h2 (by omega)
      · intro hall
        exact absurd hmatch2 (hall _ hmem)
    · intro i hi
      have hi2 : (c : Int) = (i : Int) := hi
      have hci : c = i := by omega
      subst hci
      refine ⟨⟨header[c], List.getElem?_eq_getElem hc, hmatch2⟩, ?_⟩
      intro j hj h hh heq
      have hnotj := hfirst j hj
      have hhj : header[j] = h := by
        have hjlt : j < header.length := by omega
        rw [List.getElem?_eq_getElem hjlt] at hh
        exact Option.some.inj hh
      rw [hhj, heq] at hnotj
      simp at hnotj
    · intro habs
      have habs2 : (c : Int) = -1 := habs
      exact absurd habs2 (by omega)
    · intro i hi
      have hi2 : (c : Int) = (i : Int) := hi
      have hci : c = i := by omega
      subst hci
      show (findRowScan c (jsNorm needle) ((header :: data).drop 1) 1 = -1
          ↔ ∀ row ∈ data, jsNorm (row.getD c "") ≠ jsNorm needle)
        ∧ ∀ k : Nat, ∀ row, data[k]? = some row →
            jsNorm (row.getD c "") = jsNorm needle →
            (∀ k' row', data[k']? = some row' →
                jsNorm (row'.getD c "") = jsNorm needle → k' = k) →
            findRowScan c (jsNorm needle) ((header :: data).drop 1) 1 = (k : Int) + 2
      rw [show (header :: data).drop 1 = data from rfl, findRowScan_eq]
      constructor
      · constructor
        · intro hneg
          cases hfi : data.findIdx? (fun row => jsNorm (row.getD c "") == jsNorm needle) with
          | none =>
            intro row hrow heq
            have hfalse := List.findIdx?_eq_none_iff.mp hfi row hrow
            rw [heq] at hfalse
            simp at hfalse
          | some k =>
            simp only [hfi] at hneg
            have hneg2 : ((1 : Nat) : Int) + (k : Int) + 1 = -1 := hneg
            exact absurd hneg2 (by omega)
        · intro hall
          cases hfi : data.findIdx? (fun row => jsNorm (row.getD c "") == jsNorm needle) with
          | none => rfl
          | some k =>
            obtain ⟨hk, hkm, _⟩ := List.findIdx?_eq_some_iff_getElem.mp hfi
            have hmemk : data[k] ∈ data := List.getElem_mem hk
            have hkm2 : jsNorm (data[k].getD c "") = jsNorm needle := by simpa using hkm
            exact absurd hkm2 (hall _ hmemk)
      · intro k row hrow hmatchk huniq
        have hne : data.findIdx? (fun row => jsNorm (row.getD c "") == jsNorm needle) ≠ none := by
          intro hfi
          have hkl : k < data.length := (List.getElem?_eq_some_iff.mp hrow).1
          have hrowk : data[k] = row := by
            rw [List.getElem?_eq_getElem hkl] at hrow
            exact Option.some.inj hrow
          have hfalse := List.findIdx?_eq_none_iff.mp hfi row (hrowk ▸ List.getElem_mem hkl)
          rw [hmatchk] at hfalse
          simp at hfalse
        cases hfi : data.findIdx? (fun row => jsNorm (row.getD c "") == jsNorm needle) with
        | none => exact absurd hfi hne
        | some k' =>
          obtain ⟨hk', hkm', _⟩ := List.findIdx?_eq_some_iff_getElem.mp hfi
          have hkk : k' = k :=
            huniq k' data[k'] (List.getElem?_eq_getElem hk') (by simpa using hkm')
          rw [hkk]
          show ((1 : Nat) : Int) + (k : Int) + 1 = (k : Int) + 2
          omega

theorem insertTab_ne_nil (t : Tab) (l : List Tab) : insertTab t l ≠ [] := by
  cases l with
  | nil => simp [insertTab]
  | cons u us =>
    unfold insertTab
    split <;> simp

theorem mem_insertTab (t x : Tab) : ∀ l : List Tab, x ∈ insertTab t l ↔ x = t ∨ x ∈ l := by
  intro l
  induction l with
  | nil => simp [insertTab]
  | cons u us ih =>
    unfold insertTab
    split
    · exact List.mem_cons
    · rw [List.mem_cons, ih, List.mem_cons]
      tauto

theorem mem_sortTabs (x : Tab) : ∀ l : List Tab, x ∈ sortTabs l ↔ x ∈ l := by
  intro l
  induction l with
  | nil => exact Iff.rfl
  | cons t ts ih =>
    show x ∈ insertTab t (sortTabs ts) ↔ _
    rw [mem_insertTab, ih, List.mem_cons]

theorem pairwise_insertTab (t : Tab) :
    ∀ l : List Tab, l.Pairwise (fun a b => tabKey a ≤ tabKey b) →
      (insertTab t l).Pairwise (fun a b => tabKey a ≤ tabKey b) := by
  intro l
  induction l with
  | nil =>
    intro _
    simp [insertTab]
  | cons u us ih =>
    intro hp
    rw [List.pairwise_cons] at hp
    unfold insertTab
    split
    · rename_i hle
      rw [List.pairwise_cons]
      refine ⟨?_, List.pairwise_cons.mpr hp⟩
      intro b hb
      rcases List.mem_cons.mp hb with h | h
      · subst h; exact hle
      · exact le_trans hle (hp.1 b h)
    · rename_i hgt
      have hle2 : tabKey u ≤ tabKey t := by omega
      rw [List.pairwise_cons]
      refine ⟨?_, ih hp.2⟩
      intro b hb
      rcases (mem_insertTab t b us).mp hb with h | h
      · subst h; exact hle2
      · exact hp.1 b h

theorem pairwise_sortTabs :
    ∀ l : List Tab, (sortTabs l).Pairwise (fun a b => tabKey a ≤ tabKey b) := by
  intro l
  induction l with
  | nil => exact List.Pairwise.nil
  | cons t ts ih => exact pairwise_insertTab t (sortTabs ts) ih

/-- C5: `readAllRowsFromFirstTab` reads from a tab of the spreadsheet
whose `properties.index` (0 when absent) is minimal among the sheets,
returns its rows with `[]` substituted when the tab has no values, and
throws when the sheet list is empty. -/
theorem readAllRowsFromFirstTab_correct :
    ∀ tabs : List Tab,
      (tabs = [] →
        readAllRowsFromFirstTab tabs = .error "The spreadsheet has no visible sheets.")
      ∧ (tabs ≠ [] → ∃ t, t ∈ tabs
          ∧ readAllRowsFromFirstTab tabs = .ok (t.title, t.values.getD [])
          ∧ (t.values = none → readAllRowsFromFirstTab tabs = .ok (t.title, []))
          ∧ ∀ u ∈ tabs, tabKey t ≤ tabKey u) := by
  intro tabs
  constructor
  · intro h
    subst h
    rfl
  · intro hne
    cases hsort : sortTabs tabs with
    | nil =>
      exfalso
      cases tabs with
      | nil => exact hne rfl
      | cons t0 ts => exact insertTab_ne_nil t0 (sortTabs ts) hsort
    | cons t rest =>
      have htmem : t ∈ tabs := (mem_sortTabs t tabs).mp (hsort ▸ List.mem_cons_self t rest)
      have hempty : tabs.isEmpty = false := by
        cases tabs with
        | nil => exact absurd rfl hne
        | cons _ _ => rfl
      have hval : readAllRowsFromFirstTab tabs = .ok (t.title, t.values.getD []) := by
        unfold readAllRowsFromFirstTab
        rw [hempty, if_neg Bool.false_ne_true, hsort]
        rfl
      refine ⟨t, htmem, hval, ?_, ?_⟩
      · intro hnone
        rw [hval, hnone]
        rfl
      · have hpw := pairwise_sortTabs tabs
        rw [hsort, List.pairwise_cons] at hpw
        intro u hu
        have hu2 : u ∈ t :: rest := by
          rw [← hsort]
          exact (mem_sortTabs u tabs).mpr hu
        rcases List.mem_cons.mp hu2 with h | h
        · subst h; exact le_refl _
        · exact hpw.1 u h

/-- C4: the complete and incomplete routes respond 400 when no
spreadsheet is linked or the trimmed device is empty, 404 with no write
when no data row's Device cell matches, 200 with exactly one write to
the Completed column of the matched row ("TRUE" / "FALSE") otherwise,
and 500 with no write when the handler throws (empty spreadsheet, empty
first tab, or missing Completed header). -/
theorem putComplete_putIncomplete_correct :
    ∀ (tabs : List Tab) (rawDevice : String),
      (putComplete none tabs rawDevice = (400, [])
        ∧ putIncomplete none tabs rawDevice = (400, []))
      ∧ (∀ sid, jsTrim rawDevice = "" →
          putComplete (some sid) tabs rawDevice = (400, [])
            ∧ putIncomplete (some sid) tabs rawDevice = (400, []))
      ∧ (∀ sid e, jsTrim rawDevice ≠ "" → getFirstTabHeader tabs = .error e →
          putComplete (some sid) tabs rawDevice = (500, [])
            ∧ putIncomplete (some sid) tabs rawDevice = (500, []))
      ∧ (∀ sid tabName header rows, jsTrim rawDevice ≠ "" →
          getFirstTabHeader tabs = .ok (tabName, header, rows) →
          completedHeaderIdx header = none →
          putComplete (some sid) tabs rawDevice = (500, [])
            ∧ putIncomplete (some sid) tabs rawDevice = (500, []))
      ∧ (∀ sid tabName header rows ci, jsTrim rawDevice ≠ "" →
          getFirstTabHeader tabs = .ok (tabName, header, rows) →
          completedHeaderIdx header = some ci →
          headerColIdx header "Device" = none →
          putComplete (some sid) tabs rawDevice = (404, [])
            ∧ putIncomplete (some sid) tabs rawDevice = (404, []))
      ∧ (∀ sid tabName header rows ci d, jsTrim rawDevice ≠ "" →
          getFirstTabHeader tabs = .ok (tabName, header, rows) →
          completedHeaderIdx header = some ci →
          headerColIdx header "Device" = some d →
          (∀ row ∈ rows.drop 1, jsNorm (row.getD d "") ≠ jsNorm (jsTrim rawDevice)) →
          putComplete (some sid) tabs rawDevice = (404, [])
            ∧ putIncomplete (some sid) tabs rawDevice = (404, []))
      ∧ (∀ (sid tabName : String) (header : List String) (rows : List (List String))
            (ci d k : Nat) (row : List String),
          jsTrim rawDevice ≠ "" →
          getFirstTabHeader tabs = .ok (tabName, header, rows) →
          completedHeaderIdx header = some ci →
          headerColIdx header "Device" = some d →
          (rows.drop 1)[k]? = some row →
          jsNorm (row.getD d "") = jsNorm (jsTrim rawDevice) →
          (∀ j, j < k → ∀ row2, (rows.drop 1)[j]? = some row2 →
              jsNorm (row2.getD d "") ≠ jsNorm (jsTrim rawDevice)) →
          putComplete (some sid) tabs rawDevice
              = (200, [(tabName ++ "!" ++ columnIndexToA1 ci ++ toString ((k : Int) + 2),
                        "TRUE")])
            ∧ putIncomplete (some sid) tabs rawDevice
              = (200, [(tabName ++ "!" ++ columnIndexToA1 ci ++ toString ((k : Int) + 2),
                        "FALSE")])) := by
  intro tabs rawDevice
  refine ⟨⟨rfl, rfl⟩, ?_, ?_, ?_, ?_, ?_, ?_⟩
  · intro sid hdev
    constructor <;>
      simp [putComplete, putIncomplete, hdev]
  · intro sid e hdev herr
    constructor <;>
      simp [putComplete, putIncomplete, herr, beq_eq_false_iff_ne.mpr hdev]
  · intro sid tabName header rows hdev hok hcompl
    constructor <;>
      simp [putComplete, putIncomplete, hok, hcompl, beq_eq_false_iff_ne.mpr hdev]
  · intro sid tabName header rows ci hdev hok hcompl hdevcol
    have hfr := findRowByHeaderValue_of_none rows header "Device" (jsTrim rawDevice) hdevcol
    constructor <;>
      simp [putComplete, putIncomplete, hok, hcompl, hfr, beq_eq_false_iff_ne.mpr hdev]
  · intro sid tabName header rows ci d hdev hok hcompl hdevcol hnomatch
    have hfr := findRowByHeaderValue_of_some rows header "Device" (jsTrim rawDevice) d hdevcol
    have hfi : (rows.drop 1).findIdx?
        (fun row => jsNorm (row.getD d "") == jsNorm (jsTrim rawDevice)) = none := by
      rw [List.findIdx?_eq_none_iff]
      intro row hrow
      simpa using hnomatch row hrow
    have hscan := findRowScan_eq d (jsNorm (jsTrim rawDevice)) (rows.drop 1) 1
    rw [hfi] at hscan
    have hscan2 : findRowScan d (jsNorm (jsTrim rawDevice)) rows.tail 1 = -1 := by
      rw [← List.drop_one, hscan]
    constructor <;>
      simp [putComplete, putIncomplete, hok, hcompl, hfr, hscan2,
        beq_eq_false_iff_ne.mpr hdev]
  · intro sid tabName header rows ci d k row hdev hok hcompl hdevcol hrow hmatch hfirst
    have hfr := findRowByHeaderValue_of_some rows header "Device" (jsTrim rawDevice) d hdevcol
    have hkl : k < (rows.drop 1).length := (List.getElem?_eq_some_iff.mp hrow).1
    have hrowk : (rows.drop 1)[k] = row := by
      rw [List.getElem?_eq_getElem hkl] at hrow
      exact Option.some.inj hrow
    have hfi : (rows.drop 1).findIdx?
        (fun r => jsNorm (r.getD d "") == jsNorm (jsTrim rawDevice)) = some k := by
      rw [List.findIdx?_eq_some_iff_getElem]
      refine ⟨hkl, ?_, ?_⟩
      · show (jsNorm ((rows.drop 1)[k].getD d "") == jsNorm (jsTrim rawDevice)) = true
        rw [hrowk, hmatch]
        exact beq_self_eq_true _
      · intro j hj
        have hjl : j < (rows.drop 1).length := by omega
        show ¬(jsNorm ((rows.drop 1)[j].getD d "") == jsNorm (jsTrim rawDevice)) = true
        have hne2 := hfirst j hj ((rows.drop 1)[j]) (List.getElem?_eq_getElem hjl)
        simp only [beq_iff_eq]
        exact hne2
    have hscan := findRowScan_eq d (jsNorm (jsTrim rawDevice)) (rows.drop 1) 1
    rw [hfi] at hscan
    have hval : findRowScan d (jsNorm (jsTrim rawDevice)) rows.tail 1 = (k : Int) + 2 := by
      rw [← List.drop_one, hscan]
      show ((1 : Nat) : Int) + (k : Int) + 1 = (k : Int) + 2
      omega
    have hne : (((k : Int) + 2 == -1) : Bool) = false := by
      rw [beq_eq_false_iff_ne]
      omega
    constructor <;>
      simp [putComplete, putIncomplete, hok, hcompl, hfr, hval, hne,
        beq_eq_false_iff_ne.mpr hdev]

/-- C3 counterexample: on the same sheet whose header row is
`["device", "completed"]` (lower case), the Node complete handler
resolves both columns case-insensitively and writes TRUE to `Sheet1!B2`,
while the PHP handler's case-sensitive `array_search("Device", $header)`
finds nothing and errors with 500, writing nothing; and on device "0"
(a PHP-falsy string) PHP answers 400 without writing while Node locates
the row and writes TRUE. -/
theorem node_php_divergence :
    (putComplete (some "sid")
        [⟨"Sheet1", some 0, some [["device", "completed"], ["box1", ""]]⟩] "box1"
      = (200, [("Sheet1!B2", "TRUE")])
    ∧ phpPut "complete" (some "sid")
        [⟨"Sheet1", some 0, some [["device", "completed"], ["box1", ""]]⟩] "box1" ""
      = (500, []))
    ∧ (putComplete (some "sid")
        [⟨"Sheet1", some 0, some [["Device", "Completed"], ["0", ""]]⟩] "0"
      = (200, [("Sheet1!B2", "TRUE")])
    ∧ phpPut "complete" (some "sid")
        [⟨"Sheet1", some 0, some [["Device", "Completed"], ["0", ""]]⟩] "0" ""
      = (400, [])) := by
  refine ⟨⟨?_, ?_⟩, ?_, ?_⟩ <;> decide

theorem dropWhile_head_not (p : Char → Bool) :
    ∀ (l : List Char) (a : Char) (t : List Char), l.dropWhile p = a :: t → p a = false := by
  intro l
  induction l with
  | nil =>
    intro a t h
    exact absurd h (by simp)
  | cons b u ih =>
    intro a t h
    rw [List.dropWhile_cons] at h
    by_cases hb : p b = true
    · rw [if_pos hb] at h
      exact ih a t h
    · rw [if_neg hb] at h
      injection h with h1 h2
      subst h1
      simpa using hb

theorem dropWhile_self (p : Char → Bool) :
    ∀ l : List Char, (l.dropWhile p).dropWhile p = l.dropWhile p := by
  intro l
  induction l with
  | nil => rfl
  | cons a t ih =>
    rw [List.dropWhile_cons]
    by_cases ha : p a = true
    · rw [if_pos ha]
      exact ih
    · rw [if_neg ha, List.dropWhile_cons, if_neg ha]

theorem dropWhile_append_last (p : Char → Bool) (b : Char) (hb : p b = false) :
    ∀ l : List Char, (l ++ [b]).dropWhile p = l.dropWhile p ++ [b] := by
  intro l
  induction l with
  | nil => simp [List.dropWhile_cons, hb]
  | cons a t ih =>
    rw [List.cons_append, List.dropWhile_cons, List.dropWhile_cons]
    by_cases ha : p a = true
    · rw [if_pos ha, if_pos ha, ih]
    · rw [if_neg ha, if_neg ha, List.cons_append]

theorem trimList_idem (p : Char → Bool) (l : List Char) :
    (((((((l.dropWhile p).reverse.dropWhile p).reverse).dropWhile p).reverse).dropWhile p).reverse)
      = ((l.dropWhile p).reverse.dropWhile p).reverse := by
  have hA : (((l.dropWhile p).reverse.dropWhile p).reverse).dropWhile p
      = ((l.dropWhile p).reverse.dropWhile p).reverse := by
    cases hd : l.dropWhile p with
    | nil => simp
    | cons b t =>
      have hb : p b = false := dropWhile_head_not p l b t hd
      rw [show (b :: t).reverse = t.reverse ++ [b] from by simp]
      rw [dropWhile_append_last p b hb t.reverse]
      rw [show ((t.reverse.dropWhile p) ++ [b]).reverse
          = b :: (t.reverse.dropWhile p).reverse from by simp]
      rw [List.dropWhile_cons, if_neg (by simp [hb])]
  rw [hA, List.reverse_reverse, dropWhile_self]

/-- Trimming is idempotent, so Node's re-trim inside
`findRowByHeaderValue` of the already-trimmed device is the identity. -/
theorem jsTrim_idem (s : String) : jsTrim (jsTrim s) = jsTrim s :=
  congrArg String.mk (trimList_idem isJsSpace s.toList)

theorem columnToA1_eq_columnIndexToA1 (n : Nat) : columnToA1 n = columnIndexToA1 n := rfl

/-- On a trimmed device string, and on rows whose Device cells the PHP
trim and the JS trim strip identically, the PHP row scan
(`strcasecmp . trim`) and the Node row scan (trim+lowercase on both
sides) coincide. -/
theorem phpRowScan_eq_findRowScan (dcol : Nat) (device : String)
    (hdev : jsTrim device = device) :
    ∀ (rows : List (List String)) (i : Nat),
      (∀ row ∈ rows, phpTrim (row.getD dcol "") = jsTrim (row.getD dcol "")) →
      phpRowScan dcol device rows i = findRowScan dcol (jsNorm device) rows i := by
  intro rows
  induction rows with
  | nil =>
    intro i _
    rfl
  | cons row rest ih =>
    intro i hag
    have hhead : phpTrim (row.getD dcol "") = jsTrim (row.getD dcol "") :=
      hag row (List.mem_cons_self row rest)
    have htail : ∀ r ∈ rest, phpTrim (r.getD dcol "") = jsTrim (r.getD dcol "") :=
      fun r hr => hag r (List.mem_cons_of_mem row hr)
    have hjd : jsNorm device = jsToLower device := by rw [jsNorm, hdev]
    rw [hjd] at ih ⊢
    show (if (jsToLower (phpTrim (row.getD dcol "")) == jsToLower device) = true
          then ((i : Int) + 1) else phpRowScan dcol device rest (i + 1))
      = (if (jsNorm (row.getD dcol "") == jsToLower device) = true
          then ((i : Int) + 1) else findRowScan dcol (jsToLower device) rest (i + 1))
    rw [show jsNorm (row.getD dcol "") = jsToLower (jsTrim (row.getD dcol "")) from rfl]
    rw [hhead]
    by_cases hm : (jsToLower (jsTrim (row.getD dcol "")) == jsToLower device) = true
    · rw [if_pos hm, if_pos hm]
    · rw [if_neg hm, if_neg hm]
      exact ih (i + 1) htail

/-- C3 amended: the PHP handler matches the Node handler for the
complete and incomplete actions provided (a) the first listed tab is
the one the Node stable sort puts first, (b) the PHP trim and the JS
trim agree on the device (their charlists differ at NUL and form feed)
and the trimmed device is not the PHP-falsy string "0" (there PHP
answers 400 while Node proceeds), (c) PHP's case-sensitive untrimmed
header lookups for "Device" and "Completed" resolve to the same columns
as Node's trimmed case-insensitive lookups, (d) the header does not
carry a Completed column without a Device column (there Node answers
404 and PHP 500), and (e) the two trims also agree on the data rows'
Device cells.  The comment action differs further by the sanitisation
of C9. -/
theorem node_php_agree :
    ∀ (storedId : Option String) (tabs : List Tab) (rawDevice : String),
      (sortTabs tabs).head? = tabs.head? →
      phpTrim rawDevice = jsTrim rawDevice →
      jsTrim rawDevice ≠ "0" →
      (∀ tab, tabs.head? = some tab →
          phpFindCol ((tab.values.getD []).headD []) "Device"
              = headerColIdx ((tab.values.getD []).headD []) "Device"
            ∧ phpFindCol ((tab.values.getD []).headD []) "Completed"
              = completedHeaderIdx ((tab.values.getD []).headD [])
            ∧ (headerColIdx ((tab.values.getD []).headD []) "Device" = none →
                completedHeaderIdx ((tab.values.getD []).headD []) = none)
            ∧ (∀ d, headerColIdx ((tab.values.getD []).headD []) "Device" = some d →
                ∀ row ∈ (tab.values.getD []).drop 1,
                  phpTrim (row.getD d "") = jsTrim (row.getD d ""))) →
      phpPut "complete" storedId tabs rawDevice "" = putComplete storedId tabs rawDevice
        ∧ phpPut "incomplete" storedId tabs rawDevice ""
            = putIncomplete storedId tabs rawDevice := by
  intro storedId tabs rawDevice hhead htr hzero hcols
  cases storedId with
  | none => exact ⟨rfl, rfl⟩
  | some sid =>
    by_cases hdev : (jsTrim rawDevice == "") = true
    · constructor <;> simp [phpPut, putComplete, putIncomplete, hdev, htr]
    · have hz : (jsTrim rawDevice == "0") = false := beq_eq_false_iff_ne.mpr hzero
      cases tabs with
      | nil =>
        constructor <;>
          simp [phpPut, putComplete, putIncomplete, hdev, htr, hz, getFirstTabHeader,
            readAllRowsFromFirstTab]
      | cons t ts =>
        obtain ⟨hdcol, hccol, hnone, hcells⟩ := hcols t rfl
        have hread : readAllRowsFromFirstTab (t :: ts) = .ok (t.title, t.values.getD []) := by
          unfold readAllRowsFromFirstTab
          rw [show (t :: ts).isEmpty = false from rfl, if_neg Bool.false_ne_true, hhead]
          rfl
        cases hdata : t.values.getD [] with
        | nil =>
          have hgft : getFirstTabHeader (t :: ts) = .error "Spreadsheet has no data." := by
            unfold getFirstTabHeader
            rw [hread, hdata]
            rfl
          constructor <;>
            simp [phpPut, putComplete, putIncomplete, hdev, htr, hz, hgft, hdata, phpFindCol]
        | cons h0 drest =>
          have hgft : getFirstTabHeader (t :: ts) = .ok (t.title, h0, h0 :: drest) := by
            unfold getFirstTabHeader
            rw [hread, hdata]
            rfl
          rw [hdata] at hdcol hccol hnone hcells
          simp only [List.headD_cons, List.drop_succ_cons, List.drop_zero]
            at hdcol hccol hnone hcells
          cases hcc : completedHeaderIdx h0 with
          | none =>
            cases hdc : headerColIdx h0 "Device" with
            | none =>
              have hpd : phpFindCol h0 "Device" = none := by rw [hdcol, hdc]
              constructor <;>
                simp [phpPut, putComplete, putIncomplete, hdev, htr, hz, hgft, hdata,
                  hcc, hpd]
            | some d =>
              have hpd : phpFindCol h0 "Device" = some d := by rw [hdcol, hdc]
              have hpc : phpFindCol h0 "Completed" = none := by rw [hccol, hcc]
              constructor <;>
                simp [phpPut, putComplete, putIncomplete, hdev, htr, hz, hgft, hdata,
                  hcc, hpd, hpc]
          | some ci =>
            cases hdc : headerColIdx h0 "Device" with
            | none => exact absurd (hnone hdc) (by simp [hcc])
            | some d =>
              have hpd : phpFindCol h0 "Device" = some d := by rw [hdcol, hdc]
              have hpc : phpFindCol h0 "Completed" = some ci := by rw [hccol, hcc]
              have hfr := findRowByHeaderValue_of_some (h0 :: drest) h0 "Device"
                (jsTrim rawDevice) d hdc
              have hag : ∀ row ∈ drest, phpTrim (row.getD d "") = jsTrim (row.getD d "") :=
                hcells d hdc
              have hscan := phpRowScan_eq_findRowScan d (jsTrim rawDevice)
                (jsTrim_idem rawDevice) drest 1 hag
              constructor <;>
                simp [phpPut, putComplete, putIncomplete, hdev, htr, hz, hgft, hdata,
                  hcc, hpd, hpc, hfr, hscan, columnToA1_eq_columnIndexToA1]

/-- C6: saving a spreadsheet id and loading it back returns exactly that
id, and loading yields null when the store file is missing, does not
parse, or holds no string `spreadsheetId` field. -/
theorem store_roundtrip_correct :
    (∀ id updatedAt : String,
        loadActiveSpreadsheetId (saveActiveSpreadsheetId id updatedAt) = some id)
    ∧ loadActiveSpreadsheetId none = none
    ∧ loadActiveSpreadsheetId (some none) = none
    ∧ (∀ parsed : Json,
        (∀ s : String, parsed.field? "spreadsheetId" ≠ some (.str s)) →
        loadActiveSpreadsheetId (some (some parsed)) = none) := by
  refine ⟨fun id updatedAt => rfl, rfl, rfl, ?_⟩
  intro parsed hno
  show (match parsed.field? "spreadsheetId" with
    | some (.str s) => some s
    | _ => none) = none
  cases hf : parsed.field? "spreadsheetId" with
  | none => rfl
  | some j =>
    cases j with
    | null => rfl
    | bool b => rfl
    | num n => rfl
    | str s => exact absurd hf (hno s)
    | arr xs => rfl
    | obj fs => rfl

/-- Complete case analysis of the three-attempt loop: either some
attempt succeeds (and it is the first success, every earlier attempt
failing with a non-400 status), or a failure with status 400 stops the
loop, or all three attempts fail. -/
theorem fetchRowsWorker_cases (outcomes : Nat → RowsOutcome) :
    (∃ rows, outcomes 1 = .ok rows
        ∧ fetchRowsWorker outcomes = (1, [SagaEvent.rowsSuccess rows]))
    ∨ ((outcomes 1).isOk = false ∧ (normalizeOutcome (outcomes 1)).status = some 400
        ∧ fetchRowsWorker outcomes
            = (1, [SagaEvent.rowsFailure (renormErr (normalizeOutcome (outcomes 1)))]))
    ∨ ((outcomes 1).isOk = false ∧ (normalizeOutcome (outcomes 1)).status ≠ some 400 ∧ (
        (∃ rows, outcomes 2 = .ok rows
            ∧ fetchRowsWorker outcomes = (2, [SagaEvent.rowsSuccess rows]))
        ∨ ((outcomes 2).isOk = false ∧ (normalizeOutcome (outcomes 2)).status = some 400
            ∧ fetchRowsWorker outcomes
                = (2, [SagaEvent.rowsFailure (renormErr (normalizeOutcome (outcomes 2)))]))
        ∨ ((outcomes 2).isOk = false ∧ (normalizeOutcome (outcomes 2)).status ≠ some 400 ∧ (
            (∃ rows, outcomes 3 = .ok rows
                ∧ fetchRowsWorker outcomes = (3, [SagaEvent.rowsSuccess rows]))
            ∨ ((outcomes 3).isOk = false
                ∧ fetchRowsWorker outcomes
                    = (3, [SagaEvent.rowsFailure
                        (renormErr (normalizeOutcome (outcomes 3)))])))))) := by
  cases h1 : outcomes 1 with
  | ok rows1 =>
    exact Or.inl ⟨rows1, rfl, by simp [fetchRowsWorker, fetchRowsGo, h1]⟩
  | notOk msg1 =>
    refine Or.inr (Or.inr ⟨by simp [RowsOutcome.isOk], by simp [normalizeOutcome], ?_⟩)
    cases h2 : outcomes 2 with
    | ok rows2 =>
      exact Or.inl ⟨rows2, rfl,
        by simp [fetchRowsWorker, fetchRowsGo, h1, h2, normalizeOutcome]⟩
    | notOk msg2 =>
      refine Or.inr (Or.inr ⟨by simp [RowsOutcome.isOk], by simp [normalizeOutcome], ?_⟩)
      cases h3 : outcomes 3 with
      | ok rows3 =>
        exact Or.inl ⟨rows3, rfl,
          by simp [fetchRowsWorker, fetchRowsGo, h1, h2, h3, normalizeOutcome]⟩
      | notOk msg3 =>
        refine Or.inr ⟨by simp [RowsOutcome.isOk], ?_⟩
        simp [fetchRowsWorker, fetchRowsGo, h1, h2, h3, normalizeOutcome, renormErr]
      | httpErr st3 msg3 =>
        refine Or.inr ⟨by simp [RowsOutcome.isOk], ?_⟩
        by_cases hst3 : (st3 == some 400) = true
        · simp [fetchRowsWorker, fetchRowsGo, h1, h2, h3, normalizeOutcome, renormErr, hst3]
        · simp [fetchRowsWorker, fetchRowsGo, h1, h2, h3, normalizeOutcome, renormErr, hst3]
    | httpErr st2 msg2 =>
      by_cases hst2 : (st2 == some 400) = true
      · have hst2e : st2 = some 400 := by simpa using hst2
        refine Or.inr (Or.inl ⟨by simp [RowsOutcome.isOk], by simp [normalizeOutcome, hst2e], ?_⟩)
        simp [fetchRowsWorker, fetchRowsGo, h1, h2, normalizeOutcome, renormErr, hst2]
      · have hst2e : st2 ≠ some 400 := by simpa using hst2
        refine Or.inr (Or.inr ⟨by simp [RowsOutcome.isOk],
          by simp [normalizeOutcome, hst2e], ?_⟩)
        cases h3 : outcomes 3 with
        | ok rows3 =>
          exact Or.inl ⟨rows3, rfl,
            by simp [fetchRowsWorker, fetchRowsGo, h1, h2, h3, normalizeOutcome, hst2]⟩
        | notOk msg3 =>
          refine Or.inr ⟨by simp [RowsOutcome.isOk], ?_⟩
          simp [fetchRowsWorker, fetchRowsGo, h1, h2, h3, normalizeOutcome, renormErr, hst2]
        | httpErr st3 msg3 =>
          refine Or.inr ⟨by simp [RowsOutcome.isOk], ?_⟩
          by_cases hst3 : (st3 == some 400) = true
          · simp [fetchRowsWorker, fetchRowsGo, h1, h2, h3, normalizeOutcome, renormErr,
              hst2, hst3]
          · simp [fetchRowsWorker, fetchRowsGo, h1, h2, h3, normalizeOutcome, renormErr,
              hst2, hst3]
  | httpErr st1 msg1 =>
    by_cases hst1 : (st1 == some 400) = true
    · have hst1e : st1 = some 400 := by simpa using hst1
      refine Or.inr (Or.inl ⟨by simp [RowsOutcome.isOk], by simp [normalizeOutcome, hst1e], ?_⟩)
      simp [fetchRowsWorker, fetchRowsGo, h1, normalizeOutcome, renormErr, hst1]
    · have hst1e : st1 ≠ some 400 := by simpa using hst1
      refine Or.inr (Or.inr ⟨by simp [RowsOutcome.isOk],
        by simp [normalizeOutcome, hst1e], ?_⟩)
      cases h2 : outcomes 2 with
      | ok rows2 =>
        exact Or.inl ⟨rows2, rfl,
          by simp [fetchRowsWorker, fetchRowsGo, h1, h2, normalizeOutcome, hst1]⟩
      | notOk msg2 =>
        refine Or.inr (Or.inr ⟨by simp [RowsOutcome.isOk], by simp [normalizeOutcome], ?_⟩)
        cases h3 : outcomes 3 with
        | ok rows3 =>
          exact Or.inl ⟨rows3, rfl,
            by simp [fetchRowsWorker, fetchRowsGo, h1, h2, h3, normalizeOutcome, hst1]⟩
        | notOk msg3 =>
          refine Or.inr ⟨by simp [RowsOutcome.isOk], ?_⟩
          simp [fetchRowsWorker, fetchRowsGo, h1, h2, h3, normalizeOutcome, renormErr, hst1]
        | httpErr st3 msg3 =>
          refine Or.inr ⟨by simp [RowsOutcome.isOk], ?_⟩
          by_cases hst3 : (st3 == some 400) = true
          · simp [fetchRowsWorker, fetchRowsGo, h1, h2, h3, normalizeOutcome, renormErr,
              hst1, hst3]
          · simp [fetchRowsWorker, fetchRowsGo, h1, h2, h3, normalizeOutcome, renormErr,
              hst1, hst3]
      | httpErr st2 msg2 =>
        by_cases hst2 : (st2 == some 400) = true
        · have hst2e : st2 = some 400 := by simpa using hst2
          refine Or.inr (Or.inl ⟨by simp [RowsOutcome.isOk],
            by simp [normalizeOutcome, hst2e], ?_⟩)
          simp [fetchRowsWorker, fetchRowsGo, h1, h2, normalizeOutcome, renormErr, hst1, hst2]
        · have hst2e : st2 ≠ some 400 := by simpa using hst2
          refine Or.inr (Or.inr ⟨by simp [RowsOutcome.isOk],
            by simp [normalizeOutcome, hst2e], ?_⟩)
          cases h3 : outcomes 3 with
          | ok rows3 =>
            exact Or.inl ⟨rows3, rfl,
              by simp [fetchRowsWorker, fetchRowsGo, h1, h2, h3, normalizeOutcome, hst1, hst2]⟩
          | notOk msg3 =>
            refine Or.inr ⟨by simp [RowsOutcome.isOk], ?_⟩
            simp [fetchRowsWorker, fetchRowsGo, h1, h2, h3, normalizeOutcome, renormErr,
              hst1, hst2]
          | httpErr st3 msg3 =>
            refine Or.inr ⟨by simp [RowsOutcome.isOk], ?_⟩
            by_cases hst3 : (st3 == some 400) = true
            · simp [fetchRowsWorker, fetchRowsGo, h1, h2, h3, normalizeOutcome, renormErr,
                hst1, hst2, hst3]
            · simp [fetchRowsWorker, fetchRowsGo, h1, h2, h3, normalizeOutcome, renormErr,
                hst1, hst2, hst3]

/-- C7: the rows fetch makes between 1 and 3 `GET /rows` calls; every
call before the last failed with a non-400 status (so it stops on the
first success and stops immediately on a 400 failure); if the last call
succeeded the worker dispatches exactly `ROWS_SUCCESS` with its rows;
if the last call failed it dispatches exactly one `ROWS_FAILURE`
carrying the re-normalised last error; and no other client worker makes
more than one API call. -/
theorem fetchRowsWorker_correct :
    ∀ outcomes : Nat → RowsOutcome,
      (1 ≤ (fetchRowsWorker outcomes).1 ∧ (fetchRowsWorker outcomes).1 ≤ 3)
      ∧ (∀ i, 1 ≤ i → i < (fetchRowsWorker outcomes).1 →
          (outcomes i).isOk = false
            ∧ (normalizeOutcome (outcomes i)).status ≠ some 400)
      ∧ (∀ rows, outcomes (fetchRowsWorker outcomes).1 = .ok rows →
          (fetchRowsWorker outcomes).2 = [.rowsSuccess rows])
      ∧ ((outcomes (fetchRowsWorker outcomes).1).isOk = false →
          (fetchRowsWorker outcomes).2
            = [.rowsFailure
                (renormErr (normalizeOutcome (outcomes (fetchRowsWorker outcomes).1)))])
      ∧ ((fetchRowsWorker outcomes).1 < 3 →
          (outcomes (fetchRowsWorker outcomes).1).isOk = false →
          (normalizeOutcome (outcomes (fetchRowsWorker outcomes).1)).status = some 400)
      ∧ (∀ (rawDevice : String) (po : PutOutcome),
          completeWorkerCalls rawDevice po ≤ 1
            ∧ incompleteWorkerCalls rawDevice po ≤ 1
            ∧ updateCommentWorkerCalls rawDevice po ≤ 1
            ∧ linkSheetWorkerCalls rawDevice po ≤ 1) := by
  intro outcomes
  have hworkers : ∀ (rawDevice : String) (po : PutOutcome),
      completeWorkerCalls rawDevice po ≤ 1
        ∧ incompleteWorkerCalls rawDevice po ≤ 1
        ∧ updateCommentWorkerCalls rawDevice po ≤ 1
        ∧ linkSheetWorkerCalls rawDevice po ≤ 1 := by
    intro rawDevice po
    refine ⟨?_, ?_, ?_, ?_⟩
    · unfold completeWorkerCalls
      split <;> simp
    · unfold incompleteWorkerCalls
      split <;> simp
    · unfold updateCommentWorkerCalls
      split <;> simp
    · unfold linkSheetWorkerCalls
      split <;> simp
  rcases fetchRowsWorker_cases outcomes with
      ⟨rows, h1, hw⟩
    | ⟨hf1, hs1, hw⟩
    | ⟨hf1, hn1, ⟨rows, h2, hw⟩ | ⟨hf2, hs2, hw⟩ | ⟨hf2, hn2, ⟨rows, h3, hw⟩ | ⟨hf3, hw⟩⟩⟩
  · -- success on attempt 1
    have hc1 : (fetchRowsWorker outcomes).1 = 1 := by rw [hw]
    have hev : (fetchRowsWorker outcomes).2 = [SagaEvent.rowsSuccess rows] := by rw [hw]
    refine ⟨⟨by omega, by omega⟩, ?_, ?_, ?_, ?_, hworkers⟩
    · intro i hi1 hi2
      rw [hc1] at hi2
      exact absurd hi1 (by omega)
    · intro rows2 hr
      rw [hc1, h1] at hr
      injection hr with hr2
      rw [hev, hr2]
    · intro hf
      rw [hc1, h1] at hf
      simp [RowsOutcome.isOk] at hf
    · intro _ hf
      rw [hc1, h1] at hf
      simp [RowsOutcome.isOk] at hf
  · -- 400 on attempt 1
    have hc1 : (fetchRowsWorker outcomes).1 = 1 := by rw [hw]
    have hev : (fetchRowsWorker outcomes).2
        = [SagaEvent.rowsFailure (renormErr (normalizeOutcome (outcomes 1)))] := by rw [hw]
    refine ⟨⟨by omega, by omega⟩, ?_, ?_, ?_, ?_, hworkers⟩
    · intro i hi1 hi2
      rw [hc1] at hi2
      exact absurd hi1 (by omega)
    · intro rows2 hr
      rw [hc1] at hr
      rw [hr] at hf1
      simp [RowsOutcome.isOk] at hf1
    · intro _
      rw [hev, hc1]
    · intro _ _
      rw [hc1]
      exact hs1
  · -- success on attempt 2
    have hc1 : (fetchRowsWorker outcomes).1 = 2 := by rw [hw]
    have hev : (fetchRowsWorker outcomes).2 = [SagaEvent.rowsSuccess rows] := by rw [hw]
    refine ⟨⟨by omega, by omega⟩, ?_, ?_, ?_, ?_, hworkers⟩
    · intro i hi1 hi2
      rw [hc1] at hi2
      interval_cases i
      exact ⟨hf1, hn1⟩
    · intro rows2 hr
      rw [hc1, h2] at hr
      injection hr with hr2
      rw [hev, hr2]
    · intro hf
      rw [hc1, h2] at hf
      simp [RowsOutcome.isOk] at hf
    · intro _ hf
      rw [hc1, h2] at hf
      simp [RowsOutcome.isOk] at hf
  · -- 400 on attempt 2
    have hc1 : (fetchRowsWorker outcomes).1 = 2 := by rw [hw]
    have hev : (fetchRowsWorker outcomes).2
        = [SagaEvent.rowsFailure (renormErr (normalizeOutcome (outcomes 2)))] := by rw [hw]
    refine ⟨⟨by omega, by omega⟩, ?_, ?_, ?_, ?_, hworkers⟩
    · intro i hi1 hi2
      rw [hc1] at hi2
      interval_cases i
      exact ⟨hf1, hn1⟩
    · intro rows2 hr
      rw [hc1] at hr
      rw [hr] at hf2
      simp [RowsOutcome.isOk] at hf2
    · intro _
      rw [hev, hc1]
    · intro _ _
      rw [hc1]
      exact hs2
  · -- success on attempt 3
    have hc1 : (fetchRowsWorker outcomes).1 = 3 := by rw [hw]
    have hev : (fetchRowsWorker outcomes).2 = [SagaEvent.rowsSuccess rows] := by rw [hw]
    refine ⟨⟨by omega, by omega⟩, ?_, ?_, ?_, ?_, hworkers⟩
    · intro i hi1 hi2
      rw [hc1] at hi2
      interval_cases i
      · exact ⟨hf1, hn1⟩
      · exact ⟨hf2, hn2⟩
    · intro rows2 hr
      rw [hc1, h3] at hr
      injection hr with hr2
      rw [hev, hr2]
    · intro hf
      rw [hc1, h3] at hf
      simp [RowsOutcome.isOk] at hf
    · intro hlt _
      rw [hc1] at hlt
      exact absurd hlt (by omega)
  · -- all three attempts fail
    have hc1 : (fetchRowsWorker outcomes).1 = 3 := by rw [hw]
    have hev : (fetchRowsWorker outcomes).2
        = [SagaEvent.rowsFailure (renormErr (normalizeOutcome (outcomes 3)))] := by rw [hw]
    refine ⟨⟨by omega, by omega⟩, ?_, ?_, ?_, ?_, hworkers⟩
    · intro i hi1 hi2
      rw [hc1] at hi2
      interval_cases i
      · exact ⟨hf1, hn1⟩
      · exact ⟨hf2, hn2⟩
    · intro rows2 hr
      rw [hc1] at hr
      rw [hr] at hf3
      simp [RowsOutcome.isOk] at hf3
    · intro _
      rw [hev, hc1]
    · intro hlt _
      rw [hc1] at hlt
      exact absurd hlt (by omega)

/-- A single-position match attempt fails exactly when the position does
not start with the literal followed by an id character. -/
theorem matchIdAt_eq_none_iff (cs : List Char) :
    matchIdAt cs = none
      ↔ ¬ ∃ c post, cs = sheetsLit ++ c :: post ∧ idChar c = true := by
  unfold matchIdAt
  by_cases hp : sheetsLit.isPrefixOf cs = true
  · rw [if_pos hp]
    obtain ⟨rest, hrest⟩ := List.isPrefixOf_iff_prefix.mp hp
    subst hrest
    rw [List.drop_left]
    cases rest with
    | nil =>
      show (if (List.takeWhile idChar []).isEmpty = true then none
            else some (String.mk (List.takeWhile idChar []))) = none ↔ _
      rw [if_pos (show (List.takeWhile idChar ([] : List Char)).isEmpty = true from rfl)]
      constructor
      · rintro - ⟨c, post, hcs, hc⟩
        have h2 : ([] : List Char) = c :: post := List.append_cancel_left hcs
        exact absurd h2 (by simp)
      · intro _
        rfl
    | cons d rest2 =>
      show (if (List.takeWhile idChar (d :: rest2)).isEmpty = true then none
            else some (String.mk (List.takeWhile idChar (d :: rest2)))) = none ↔ _
      rw [List.takeWhile_cons]
      by_cases hd : idChar d = true
      · rw [if_pos hd, if_neg (by simp)]
        constructor
        · intro h
          exact absurd h (by simp)
        · intro hno
          exact absurd ⟨d, rest2, rfl, hd⟩ hno
      · rw [if_neg hd,
          if_pos (show (List.isEmpty ([] : List Char)) = true from rfl)]
        constructor
        · rintro - ⟨c, post, hcs, hc⟩
          have h2 : d :: rest2 = c :: post := List.append_cancel_left hcs
          injection h2 with h3 h4
          rw [h3] at hd
          exact hd hc
        · intro _
          rfl
  · rw [if_neg hp]
    constructor
    · rintro - ⟨c, post, hcs, hc⟩
      have h9 := List.isPrefixOf_iff_prefix.mpr ⟨c :: post, hcs.symm⟩
      exact hp h9
    · intro _
      rfl

/-- A successful single-position match captures the maximal id-character
run right after the literal. -/
theorem matchIdAt_eq_some (cs : List Char) (g : String) (h : matchIdAt cs = some g) :
    ∃ post, cs = sheetsLit ++ g.toList ++ post
      ∧ g.toList ≠ [] ∧ (∀ c ∈ g.toList, idChar c = true)
      ∧ (∀ c post2, post = c :: post2 → idChar c = false) := by
  unfold matchIdAt at h
  by_cases hp : sheetsLit.isPrefixOf cs = true
  · rw [if_pos hp] at h
    obtain ⟨rest, hrest⟩ := List.isPrefixOf_iff_prefix.mp hp
    subst hrest
    rw [List.drop_left] at h
    by_cases he : (rest.takeWhile idChar).isEmpty = true
    · rw [if_pos he] at h
      exact absurd h (by simp)
    · rw [if_neg he] at h
      injection h with h2
      refine ⟨rest.dropWhile idChar, ?_, ?_, ?_, ?_⟩
      · rw [← h2]
        rw [show (String.mk (rest.takeWhile idChar)).toList = rest.takeWhile idChar from rfl]
        rw [List.append_assoc, List.takeWhile_append_dropWhile]
      · rw [← h2]
        intro hnil
        rw [show (String.mk (rest.takeWhile idChar)).toList = rest.takeWhile idChar from rfl]
          at hnil
        rw [hnil] at he
        exact he rfl
      · intro c hc
        rw [← h2] at hc
        exact List.mem_takeWhile_imp hc
      · intro c post2 hpost
        exact dropWhile_head_not idChar rest c post2 hpost
  · rw [if_neg hp] at h
    exact absurd h (by simp)

/-- The scan finds no match exactly when the pattern occurs nowhere. -/
theorem findIdMatch_eq_none_iff :
    ∀ cs : List Char, findIdMatch cs = none
      ↔ ¬ ∃ pre c post, cs = pre ++ sheetsLit ++ c :: post ∧ idChar c = true := by
  intro cs
  induction cs with
  | nil =>
    constructor
    · rintro - ⟨pre, c, post, hcs, hc⟩
      exact absurd hcs.symm (by simp)
    · intro _
      rfl
  | cons a rest ih =>
    show (match matchIdAt (a :: rest) with
        | some g => some g
        | none => findIdMatch rest) = none ↔ _
    cases hm : matchIdAt (a :: rest) with
    | some g =>
      constructor
      · intro h
        exact absurd h (by simp)
      · intro hno
        exfalso
        obtain ⟨post, hcs, hne, hall, hmax⟩ := matchIdAt_eq_some (a :: rest) g hm
        cases hg : g.toList with
        | nil => exact hne hg
        | cons c grest =>
          refine hno ⟨[], c, grest ++ post, ?_,
            hall c (by rw [hg]; exact List.mem_cons_self c grest)⟩
          rw [List.nil_append, hcs, hg]
          simp
    | none =>
      show findIdMatch rest = none ↔ _
      rw [ih]
      have hnoimm := (matchIdAt_eq_none_iff (a :: rest)).mp hm
      constructor
      · rintro hno ⟨pre, c, post, hcs, hc⟩
        cases pre with
        | nil =>
          exact hnoimm ⟨c, post, by simpa using hcs, hc⟩
        | cons a2 pre2 =>
          have h2 : rest = pre2 ++ sheetsLit ++ c :: post := by
            have h3 := hcs
            simp only [List.cons_append, List.append_assoc] at h3
            injection h3 with ha hb
            simpa [List.append_assoc] using hb
          exact hno ⟨pre2, c, post, h2, hc⟩
      · rintro hno ⟨pre, c, post, hcs, hc⟩
        refine hno ⟨a :: pre, c, post, ?_, hc⟩
        rw [hcs]
        simp

/-- A successful scan returns the leftmost match's capture. -/
theorem findIdMatch_eq_some :
    ∀ (cs : List Char) (g : String), findIdMatch cs = some g →
      ∃ pre post, cs = pre ++ sheetsLit ++ g.toList ++ post
        ∧ g.toList ≠ [] ∧ (∀ c ∈ g.toList, idChar c = true)
        ∧ (∀ c post2, post = c :: post2 → idChar c = false)
        ∧ (∀ pre2 c post2, cs = pre2 ++ sheetsLit ++ c :: post2 → idChar c = true →
            pre.length ≤ pre2.length) := by
  intro cs
  induction cs with
  | nil =>
    intro g h
    exact absurd h (by simp [findIdMatch])
  | cons a rest ih =>
    intro g h
    rw [show findIdMatch (a :: rest)
        = (match matchIdAt (a :: rest) with
            | some g => some g
            | none => findIdMatch rest) from rfl] at h
    cases hm : matchIdAt (a :: rest) with
    | some g0 =>
      rw [hm] at h
      injection h with h2
      rw [h2] at hm
      obtain ⟨post, hcs, hne, hall, hmax⟩ := matchIdAt_eq_some (a :: rest) g hm
      refine ⟨[], post, by simpa using hcs, hne, hall, hmax, ?_⟩
      intro pre2 c post2 _ _
      exact Nat.zero_le _
    | none =>
      rw [hm] at h
      obtain ⟨pre, post, hcs, hne, hall, hmax, hmin⟩ := ih g h
      have hnoimm := (matchIdAt_eq_none_iff (a :: rest)).mp hm
      refine ⟨a :: pre, post, by rw [List.cons_append, hcs]; simp, hne, hall, hmax, ?_⟩
      intro pre2 c post2 hcs2 hc
      cases pre2 with
      | nil =>
        exact absurd ⟨c, post2, by simpa using hcs2, hc⟩ hnoimm
      | cons a2 pre3 =>
        have h2 : rest = pre3 ++ sheetsLit ++ c :: post2 := by
          have := hcs2
          simp only [List.cons_append, List.append_assoc] at this
          injection this with ha hb
          simpa [List.append_assoc] using hb
        have := hmin pre3 c post2 h2 hc
        simpa using Nat.succ_le_succ this

/-- C8: `normalizeSpreadsheetId` yields null on a missing/non-string or
empty input, the trimmed input when it does not contain "http", and
otherwise the first capture of `spreadsheets\/d\/([a-zA-Z0-9-_]+)` —
the maximal id-character run after the leftmost occurrence of the
literal followed by at least one id character — or null when the
pattern does not occur. -/
theorem normalizeSpreadsheetId_correct :
    normalizeSpreadsheetId none = none
    ∧ normalizeSpreadsheetId (some "") = none
    ∧ (∀ s : String, s ≠ "" → hasHttp s = false →
        normalizeSpreadsheetId (some s) = some (jsTrim s))
    ∧ (∀ s : String, s ≠ "" → hasHttp s = true →
        (normalizeSpreadsheetId (some s) = none ↔
          ¬ ∃ pre c post, s.toList = pre ++ sheetsLit ++ c :: post ∧ idChar c = true))
    ∧ (∀ (s g : String), s ≠ "" → hasHttp s = true →
        normalizeSpreadsheetId (some s) = some g →
        ∃ pre post, s.toList = pre ++ sheetsLit ++ g.toList ++ post
          ∧ g.toList ≠ [] ∧ (∀ c ∈ g.toList, idChar c = true)
          ∧ (∀ c post2, post = c :: post2 → idChar c = false)
          ∧ (∀ pre2 c post2, s.toList = pre2 ++ sheetsLit ++ c :: post2 →
              idChar c = true → pre.length ≤ pre2.length)) := by
  have hnorm : ∀ s : String, s ≠ "" → hasHttp s = true →
      normalizeSpreadsheetId (some s) = findIdMatch s.toList := by
    intro s hs hh
    show (if (s == "") = true then none
        else if (!hasHttp s) = true then some (jsTrim s) else findIdMatch s.toList) = _
    rw [if_neg (by simp [hs]), hh]
    rfl
  refine ⟨rfl, rfl, ?_, ?_, ?_⟩
  · intro s hs hh
    show (if (s == "") = true then none
        else if (!hasHttp s) = true then some (jsTrim s) else findIdMatch s.toList) = _
    rw [if_neg (by simp [hs]), hh]
    rfl
  · intro s hs hh
    rw [hnorm s hs hh]
    exact findIdMatch_eq_none_iff s.toList
  · intro s g hs hh hsome
    rw [hnorm s hs hh] at hsome
    exact findIdMatch_eq_some s.toList g hsome

/-- C9: the PHP comment action prepends a single apostrophe (char 39)
when the comment starts with '=', '+', '-' or '@' and writes every
other comment verbatim; the Node comment route applies no such guard
and always writes the comment verbatim. -/
theorem phpSanitizeComment_correct :
    ∀ comment : String,
      (∀ ch rest, comment.toList = ch :: rest →
          ((ch = '=' ∨ ch = '+' ∨ ch = '-' ∨ ch = '@') →
              (phpSanitizeComment comment).toList = Char.ofNat 39 :: comment.toList)
          ∧ (¬(ch = '=' ∨ ch = '+' ∨ ch = '-' ∨ ch = '@') →
              phpSanitizeComment comment = comment))
      ∧ (∀ (storedId : Option String) (tabs : List Tab) (rawDevice : String)
            (st : Nat) (ws : List (String × String)),
          phpPut "comment" storedId tabs rawDevice comment = (st, ws) →
          ∀ rv ∈ ws, rv.2 = phpSanitizeComment comment)
      ∧ (∀ (storedId : Option String) (tabs : List Tab) (rawDevice : String)
            (st : Nat) (ws : List (String × String)),
          putComment storedId tabs rawDevice comment = (st, ws) →
          ∀ rv ∈ ws, rv.2 = comment) := by
  intro comment
  refine ⟨?_, ?_, ?_⟩
  · intro ch rest hcl
    constructor
    · intro hch
      unfold phpSanitizeComment
      rw [hcl]
      show ((if (ch == '=' || ch == '+' || ch == '-' || ch == '@') = true
          then String.mk [Char.ofNat 39] ++ comment else comment)).toList
        = Char.ofNat 39 :: ch :: rest
      rw [if_pos (by rcases hch with h | h | h | h <;> simp [h])]
      rw [show (String.mk [Char.ofNat 39] ++ comment).toList
          = Char.ofNat 39 :: comment.toList from rfl, hcl]
    · intro hch
      unfold phpSanitizeComment
      rw [hcl]
      show (if (ch == '=' || ch == '+' || ch == '-' || ch == '@') = true
          then String.mk [Char.ofNat 39] ++ comment else comment) = comment
      rw [if_neg (by simp only [Bool.or_eq_true, beq_iff_eq]; tauto)]
  · intro storedId tabs rawDevice st ws heq rv hrv
    unfold phpPut at heq
    dsimp only [] at heq
    rw [show (if (("comment" == "comment") = true) then "Comment" else "Completed")
        = "Comment" from rfl] at heq
    rw [show (if (("comment" == "comment") = true) then phpSanitizeComment comment
        else if (("comment" == "complete") = true) then "TRUE" else "FALSE")
        = phpSanitizeComment comment from rfl] at heq
    repeat' split at heq
    all_goals
      (injection heq with h1 h2
       subst h2)
    all_goals try simp at hrv
    subst hrv
    simp
  · intro storedId tabs rawDevice st ws heq rv hrv
    unfold putComment at heq
    dsimp only [] at heq
    repeat' split at heq
    all_goals
      (injection heq with h1 h2
       subst h2)
    all_goals try simp at hrv
    subst hrv
    rfl

/-- Witness for the amended C3 theorem: a concrete sheet whose header is
exactly ["Device", "Completed"] satisfies every hypothesis, and there
the two implementations agree. -/
theorem node_php_agree_witness :
    phpPut "complete" (some "sid")
        [⟨"Sheet1", some 0, some [["Device", "Completed"], ["box1", ""]]⟩] "box1" ""
      = putComplete (some "sid")
        [⟨"Sheet1", some 0, some [["Device", "Completed"], ["box1", ""]]⟩] "box1"
    ∧ phpPut "incomplete" (some "sid")
        [⟨"Sheet1", some 0, some [["Device", "Completed"], ["box1", ""]]⟩] "box1" ""
      = putIncomplete (some "sid")
        [⟨"Sheet1", some 0, some [["Device", "Completed"], ["box1", ""]]⟩] "box1" :=
  node_php_agree (some "sid")
    [⟨"Sheet1", some 0, some [["Device", "Completed"], ["box1", ""]]⟩] "box1"
    (by decide)
    (by decide)
    (by decide)
    (by
      intro tab htab
      injection htab with h
      rw [← h]
      refine ⟨by decide, by decide, by decide, ?_⟩
      intro d hd
      have hd2 : some 0 = some d := hd
      injection hd2 with hd3
      rw [← hd3]
      decide)

end CNHTracker
